import Mathlib

/-
Verification of the query_patients repository (src/streamlit_app.py).

Text is embedded as `List Char`.  Python's regex/string operations are
modelled over the ASCII fragment (the `\s` class, the `\w` class and
case folding are modelled by `isSpace`, `isWordChar` and `Char.toLower`,
which agree with Python on ASCII input).

The three regex uses in `extract_sql_from_response` are modelled as
follows, matching CPython's leftmost-match backtracking semantics:

1. re.findall(r"```sql\s*(.*?)\s*```", t, DOTALL|IGNORECASE), first match:
   the engine succeeds at the least position p where "```sql" matches
   case-insensitively and some "```" occurs at a position >= p+6 (with
   DOTALL the lazy group can absorb anything up to that closing fence,
   and whitespace runs contain no backtick, so the greedy \s* never needs
   to backtrack past a fence).  If the first occurrence of "```sql" has
   no "```" after it, no later occurrence can have one either, so the
   match position is simply the first occurrence of "```sql".  The lazy
   group then ends at the earliest "```" after p+6, with the two \s*
   absorbing the surrounding whitespace, so the value produced by the
   Python code (group(1).strip()) equals the strip of the text strictly
   between position p+6 and that earliest closing fence.

2. re.findall(r"```\s*(.*?)\s*```", t, DOTALL): same with "```" and p+3.

3. re.search(r"\b(SELECT|WITH|CREATE|INSERT|UPDATE|DELETE)\b", t,
   IGNORECASE): the least position where one of the six keywords matches
   case-insensitively with a non-word character (or the text edge) on
   both sides.  The six keywords start with six distinct letters, so the
   alternation order is irrelevant.

These characterisations were cross-checked against CPython's `re` on the
corner cases exercised below (nested fences, runs of backticks, unclosed
fences, embedded keywords).
-/

namespace QueryPatients

/-- Coerce a string literal to the `List Char` the embedding works on. -/
def chars (s : String) : List Char := s.data

/-- Python's whitespace class over ASCII: " \t\n\r\x0b\x0c". -/
def isSpace (c : Char) : Bool :=
  c = ' ' || c = '\t' || c = '\n' || c = '\r' || c = '\x0b' || c = '\x0c'

/-- Python's regex word-character class over ASCII: [A-Za-z0-9_]. -/
def isWordChar (c : Char) : Bool :=
  c.isAlphanum || c = '_'

/-- Python's str.strip(): remove leading and trailing whitespace. -/
def pyStrip (l : List Char) : List Char :=
  ((l.dropWhile isSpace).reverse.dropWhile isSpace).reverse

/-- The suffix `s` begins with the literal pattern `pat`. -/
def startsWith (pat s : List Char) : Bool :=
  decide (s.take pat.length = pat)

/-- The suffix `s` begins with the pattern `pat`, case-insensitively. -/
def startsWithCI (pat s : List Char) : Bool :=
  decide ((s.take pat.length).map Char.toLower = pat.map Char.toLower)

/-- The literal fence "```". -/
def ticks : List Char := chars "```"

/-- The literal tagged fence opener "```sql". -/
def ticksSql : List Char := chars "```sql"

/-- Leftmost index whose suffix satisfies `p`, the way a regex engine
scans candidate start positions 0, 1, ... in order. -/
def reFindIdx (p : List Char → Bool) (t : List Char) : Option Nat :=
  (List.range (t.length + 1)).find? (fun i => p (t.drop i))

/-- First match of re.findall(r"```sql\s*(.*?)\s*```", t, DOTALL|IGNORECASE),
already stripped (the .strip() in the source is a no-op on the captured
group, see the header comment). -/
def fencedSqlMatch (t : List Char) : Option (List Char) :=
  match reFindIdx (startsWithCI ticksSql) t with
  | none => none
  | some p =>
    match reFindIdx (startsWith ticks) (t.drop (p + 6)) with
    | none => none
    | some q => some (pyStrip ((t.drop (p + 6)).take q))

/-- First match of re.findall(r"```\s*(.*?)\s*```", t, DOTALL), stripped. -/
def fencedCodeMatch (t : List Char) : Option (List Char) :=
  match reFindIdx (startsWith ticks) t with
  | none => none
  | some p =>
    match reFindIdx (startsWith ticks) (t.drop (p + 3)) with
    | none => none
    | some q => some (pyStrip ((t.drop (p + 3)).take q))

/-- The six SQL keywords of the fallback regex, in lower case. -/
def keywords : List (List Char) :=
  [chars "select", chars "with", chars "create", chars "insert",
   chars "update", chars "delete"]

/-- A keyword matches at the head of the suffix `s`, with a word boundary
after it. -/
def keywordHere (s : List Char) : Bool :=
  keywords.any (fun kw => startsWithCI kw s && !(isWordChar (s.getD kw.length ' ')))

/-- A keyword matches in `t` at position `i`, with word boundaries on both
sides (re.search(r"\b(SELECT|WITH|CREATE|INSERT|UPDATE|DELETE)\b", IGNORECASE)). -/
def keywordAt (t : List Char) (i : Nat) : Bool :=
  (i == 0 || !(isWordChar (t.getD (i - 1) ' '))) && keywordHere (t.drop i)

/-- Position of the leftmost whole-word, case-insensitive SQL keyword. -/
def keywordSearch (t : List Char) : Option Nat :=
  (List.range (t.length + 1)).find? (keywordAt t)

/-- Embedding of extract_sql_from_response (src/streamlit_app.py lines
145-171): empty input yields None, then the fenced-sql pattern, the
generic fenced pattern, the keyword fallback and the whole trimmed text
are tried in that order. -/
def extract_sql_from_response (t : List Char) : Option (List Char) :=
  if t = [] then none
  else
    match fencedSqlMatch t with
    | some r => some r
    | none =>
      match fencedCodeMatch t with
      | some r => some r
      | none =>
        match keywordSearch t with
        | some i => some (pyStrip (t.drop i))
        | none => some (pyStrip t)

/-
Spec-side definitions.  The spec (section 4.2) describes extraction as an
ordered fallback chain: (a) first fenced block tagged as SQL, (b) first
generic fenced code block, (c) substring starting at the first occurrence
of a SQL keyword, (d) the entire input text, trimmed.  The scanners below
follow that wording with a direct structural recursion over the text
("first" = scan from the left), to be compared with the regex-engine
style definitions above.
-/

/-- Leftmost index whose suffix satisfies `p`, by structural recursion. -/
def scanFor (p : List Char → Bool) : List Char → Option Nat
  | [] => if p [] then some 0 else none
  | c :: cs => if p (c :: cs) then some 0 else Option.map (· + 1) (scanFor p cs)

/-- Spec wording (a): trimmed contents of the first fenced code block
tagged as SQL (opener "```sql", case-insensitive, contents up to the next
"```"). -/
def firstTaggedSqlBlock (t : List Char) : Option (List Char) :=
  match scanFor (startsWithCI ticksSql) t with
  | none => none
  | some p =>
    match scanFor (startsWith ticks) (t.drop (p + 6)) with
    | none => none
    | some q => some (pyStrip ((t.drop (p + 6)).take q))

/-- Spec wording (b): trimmed contents of the first generic fenced code
block (opener "```", contents up to the next "```"). -/
def firstCodeBlock (t : List Char) : Option (List Char) :=
  match scanFor (startsWith ticks) t with
  | none => none
  | some p =>
    match scanFor (startsWith ticks) (t.drop (p + 3)) with
    | none => none
    | some q => some (pyStrip ((t.drop (p + 3)).take q))

/-- The fallback chain exactly as claim C1 words it: in step (c) it
returns "the substring starting at the first occurrence of one of the SQL
keywords" to the end of the input, with no trimming. -/
def extract_sql_spec (t : List Char) : Option (List Char) :=
  if t = [] then none
  else
    match firstTaggedSqlBlock t with
    | some r => some r
    | none =>
      match firstCodeBlock t with
      | some r => some r
      | none =>
        match keywordSearch t with
        | some i => some (t.drop i)
        | none => some (pyStrip t)

/-- The fallback chain with step (c) amended to trim the keyword suffix,
as the code does. -/
def extract_sql_spec_trimmed (t : List Char) : Option (List Char) :=
  if t = [] then none
  else
    match firstTaggedSqlBlock t with
    | some r => some r
    | none =>
      match firstCodeBlock t with
      | some r => some r
      | none =>
        match keywordSearch t with
        | some i => some (pyStrip (t.drop i))
        | none => some (pyStrip t)

/-- `r` occurs contiguously inside `t`. -/
def substringOf (r t : List Char) : Prop :=
  ∃ u v, t = u ++ r ++ v

/-
Model of the Streamlit session state and the event handlers of main()
(src/streamlit_app.py).  Each user interaction reruns the script; the
handlers below are the state updates the rerun performs for each button.
External effects are parameters: `ck` abstracts bcrypt.checkpw, `connect`
abstracts psycopg2.connect (none = the connection attempt fails), `exec`
abstracts pd.read_sql_query (none = the query raises, some n = a frame
with n rows), `llm` abstracts the chat-completion call (none = the API
call raises, some raw = the model's reply text).
-/

/-- Messages surfaced inline on the page (st.error / st.warning / st.success). -/
inductive Msg where
  | loginSuccess
  | incorrectPassword
  | enterPassword
  | connectFailed
  | queryError
  deriving DecidableEq

/-- One stored query_history element: {'question': ..., 'sql': ..., 'rows': ...}. -/
structure HistoryEntry where
  question : Option (List Char)
  sql : List Char
  rows : Nat
  deriving DecidableEq

/-- The st.session_state fields the app uses. -/
structure AppState where
  logged_in : Bool
  query_history : List HistoryEntry
  generated_sql : Option (List Char)
  current_question : Option (List Char)
  raw_response : Option (List Char)
  deriving DecidableEq

/-- Session state right after initialization in main(). -/
def initState : AppState :=
  { logged_in := true, query_history := [], generated_sql := none,
    current_question := none, raw_response := none }

/-- login_screen (lines 80-93), restricted to the Login-button branch:
empty password -> warning, correct password -> logged_in set true,
wrong password -> error, logged_in untouched.  Returns the new flag and
the message shown. -/
def login_screen (ck : List Char → Bool) (password : List Char) (li : Bool) :
    Bool × Msg :=
  if password = [] then (li, Msg.enterPassword)
  else if ck password then (true, Msg.loginSuccess)
  else (li, Msg.incorrectPassword)

/-- get_db_connection: a failing connect shows an error and yields None.
(The @st.cache_resource memoization is abstracted away: the model performs
the connection attempt on each call, as the function body does.) -/
def get_db_connection (connect : Option Unit) : Option Unit × List Msg :=
  match connect with
  | none => (none, [Msg.connectFailed])
  | some c => (some c, [])

/-- run_query (lines 130-140): None when the connection is unavailable;
otherwise the result of pd.read_sql_query, with a caught exception shown
as an inline error and turned into None. -/
def run_query (connect : Option Unit) (exec : List Char → Option Nat)
    (sql : List Char) : Option Nat × List Msg :=
  match get_db_connection connect with
  | (none, ms) => (none, ms)
  | (some _, ms) =>
    match exec sql with
    | some n => (some n, ms)
    | none => (none, ms ++ [Msg.queryError])

/-- The Run-Query handler (lines 282-290): on success append a history
entry {question, sql, rows}; on failure leave the state alone. -/
def run_step (runq : List Char → Option Nat) (edited : List Char)
    (s : AppState) : AppState :=
  match runq edited with
  | some n =>
    { s with query_history :=
        s.query_history ++ [⟨s.current_question, edited, n⟩] }
  | none => s

/-- The Clear-History handler (lines 244-248). -/
def clear_step (s : AppState) : AppState :=
  { s with query_history := [], generated_sql := none, current_question := none }

/-- generate_sql_with_gpt: on a reply, extract SQL from it and hand both
back; on an API exception, (None, None). -/
def generate_sql_with_gpt (resp : Option (List Char)) :
    Option (List Char) × Option (List Char) :=
  match resp with
  | some raw => (extract_sql_from_response raw, some raw)
  | none => (none, none)

/-- The reset main() performs before the LLM call (lines 256-259): store
the stripped question and clear generated_sql. -/
def generate_prepare (q : List Char) (s : AppState) : AppState :=
  { s with current_question := some q, generated_sql := none }

/-- The Generate-SQL handler (lines 250-266): nothing happens when the
question text is empty; otherwise the question is stripped, the reset is
applied, the LLM is called, and a truthy (non-None, non-empty) extracted
query is stored together with the raw reply. -/
def generate_step (llm : List Char → Option (List Char)) (question : List Char)
    (s : AppState) : AppState :=
  if question = [] then s
  else
    let q := pyStrip question
    let s1 := generate_prepare q s
    match generate_sql_with_gpt (llm q) with
    | (some sql, raw) =>
      if sql = [] then s1
      else { s1 with generated_sql := some sql, raw_response := raw }
    | (none, _) => s1

/-- N executions in a row (each one a rerun that clicks Run Query). -/
def iter_runs (runq : List Char → Option Nat) (qs : List (List Char))
    (s : AppState) : AppState :=
  qs.foldl (fun st q => run_step runq q st) s

/-- The history entries the page displays (lines 297-301):
reversed(query_history[-5:]). -/
def displayed_history (s : AppState) : List HistoryEntry :=
  (s.query_history.drop (s.query_history.length - 5)).reverse

/- ------------------------------------------------------------------ -/
/- Shared lemmas                                                      -/
/- ------------------------------------------------------------------ -/

theorem find_cons (f : Nat → Bool) (a : Nat) (l : List Nat) :
    List.find? f (a :: l) = if f a then some a else List.find? f l := by
  cases h : f a <;> simp [List.find?, h]

theorem find_map_succ (f : Nat → Bool) (l : List Nat) :
    List.find? f (l.map Nat.succ) =
      Option.map Nat.succ (List.find? (fun i => f (Nat.succ i)) l) := by
  induction l with
  | nil => rfl
  | cons a l ih =>
    rw [List.map_cons, find_cons, find_cons]
    cases h : f (Nat.succ a) <;> simp [h, ih]

/-- Scanning candidate start positions 0, 1, ... the way the regex engine
does agrees with the structural left-to-right scanner. -/
theorem reFindIdx_eq_scanFor (p : List Char → Bool) :
    ∀ t : List Char, reFindIdx p t = scanFor p t := by
  intro t
  induction t with
  | nil =>
    have h1 : List.range (List.length ([] : List Char) + 1) = [0] := rfl
    rw [reFindIdx, h1, find_cons]
    simp only [List.drop_zero, List.find?_nil]
    cases h : p ([] : List Char) <;> simp [scanFor, h]
  | cons c cs ih =>
    rw [reFindIdx] at ih ⊢
    have h1 : List.range (List.length (c :: cs) + 1) =
        0 :: (List.range (cs.length + 1)).map Nat.succ := by
      rw [List.length_cons, List.range_succ_eq_map]
    rw [h1, find_cons, find_map_succ]
    simp only [Nat.succ_eq_add_one, List.drop_succ_cons, List.drop_zero]
    rw [ih]
    cases h : p (c :: cs) with
    | true => simp [scanFor, h]
    | false =>
      simp only [h, Bool.false_eq_true, if_false, scanFor]

theorem substringOf_trans {a b c : List Char}
    (h1 : substringOf a b) (h2 : substringOf b c) : substringOf a c := by
  obtain ⟨u, v, rfl⟩ := h1
  obtain ⟨x, y, rfl⟩ := h2
  exact ⟨x ++ u, v ++ y, by simp⟩

theorem take_substringOf (l : List Char) (n : Nat) : substringOf (l.take n) l :=
  ⟨[], l.drop n, by simp⟩

theorem drop_substringOf (l : List Char) (n : Nat) : substringOf (l.drop n) l :=
  ⟨l.take n, [], by simp⟩

theorem pyStrip_substringOf (l : List Char) : substringOf (pyStrip l) l := by
  refine ⟨l.takeWhile isSpace,
          ((l.dropWhile isSpace).reverse.takeWhile isSpace).reverse, ?_⟩
  have h2 := List.takeWhile_append_dropWhile isSpace (l.dropWhile isSpace).reverse
  have h4 := congrArg List.reverse h2
  simp only [List.reverse_append, List.reverse_reverse] at h4
  have h5 := List.takeWhile_append_dropWhile isSpace l
  conv_lhs => rw [← h5]
  rw [List.append_assoc]
  congr 1
  simp only [pyStrip]
  exact h4.symm

theorem fencedSqlMatch_substringOf {t r : List Char}
    (h : fencedSqlMatch t = some r) : substringOf r t := by
  cases h1 : reFindIdx (startsWithCI ticksSql) t with
  | none => simp [fencedSqlMatch, h1] at h
  | some p =>
    cases h2 : reFindIdx (startsWith ticks) (t.drop (p + 6)) with
    | none => simp [fencedSqlMatch, h1, h2] at h
    | some q =>
      simp only [fencedSqlMatch, h1, h2, Option.some.injEq] at h
      subst h
      exact substringOf_trans (pyStrip_substringOf _)
        (substringOf_trans (take_substringOf _ _) (drop_substringOf _ _))

theorem fencedCodeMatch_substringOf {t r : List Char}
    (h : fencedCodeMatch t = some r) : substringOf r t := by
  cases h1 : reFindIdx (startsWith ticks) t with
  | none => simp [fencedCodeMatch, h1] at h
  | some p =>
    cases h2 : reFindIdx (startsWith ticks) (t.drop (p + 3)) with
    | none => simp [fencedCodeMatch, h1, h2] at h
    | some q =>
      simp only [fencedCodeMatch, h1, h2, Option.some.injEq] at h
      subst h
      exact substringOf_trans (pyStrip_substringOf _)
        (substringOf_trans (take_substringOf _ _) (drop_substringOf _ _))

/- ------------------------------------------------------------------ -/
/- Claim C1                                                           -/
/- ------------------------------------------------------------------ -/

/-- C1, counterexample.  The claim's step (c) promises "the substring
starting at the first occurrence of one of the SQL keywords" (to the end
of the input, untrimmed).  On "ok SELECT 2\n" the code strips the
trailing newline, so the code disagrees with the chain as claimed. -/
theorem extract_spec_chain_cex :
    extract_sql_from_response (chars "ok SELECT 2\n") = some (chars "SELECT 2") ∧
    extract_sql_spec (chars "ok SELECT 2\n") = some (chars "SELECT 2\n") ∧
    extract_sql_from_response (chars "ok SELECT 2\n") ≠
      extract_sql_spec (chars "ok SELECT 2\n") := by
  refine ⟨by decide, by decide, ?_⟩
  decide

/-- C1, amended: extract_sql_from_response applies the four fallbacks in
the claimed fixed order and returns the first that applies — (a) trimmed
contents of the first fenced block tagged sql, (b) trimmed contents of
the first generic fenced block, (c) the TRIMMED substring starting at the
first whole-word, case-insensitive occurrence of a SQL keyword, (d) the
entire input, trimmed — with None only for empty input. -/
theorem extract_matches_spec_chain (t : List Char) :
    extract_sql_from_response t = extract_sql_spec_trimmed t := by
  simp only [extract_sql_from_response, extract_sql_spec_trimmed,
    fencedSqlMatch, firstTaggedSqlBlock, fencedCodeMatch, firstCodeBlock,
    reFindIdx_eq_scanFor]

/- ------------------------------------------------------------------ -/
/- Claim C2                                                           -/
/- ------------------------------------------------------------------ -/

/-- C2, counterexample.  The single-space input is non-empty, yet the
code returns the empty string (response_text.strip()), not a non-empty
SQL string. -/
theorem extract_whitespace_cex :
    extract_sql_from_response (chars " ") = some [] ∧ chars " " ≠ [] := by
  decide

/-- C2, amended: the result is None exactly when the input is empty;
every non-empty input yields a non-None string (which may itself be
empty, e.g. on whitespace-only input). -/
theorem extract_none_iff (t : List Char) :
    extract_sql_from_response t = none ↔ t = [] := by
  constructor
  · intro h
    by_contra hne
    rw [extract_sql_from_response, if_neg hne] at h
    cases h1 : fencedSqlMatch t with
    | some r => simp [h1] at h
    | none =>
      cases h2 : fencedCodeMatch t with
      | some r => simp [h1, h2] at h
      | none =>
        cases h3 : keywordSearch t with
        | some i => simp [h1, h2, h3] at h
        | none => simp [h1, h2, h3] at h
  · intro h
    subst h
    rfl

/- ------------------------------------------------------------------ -/
/- Claim C3                                                           -/
/- ------------------------------------------------------------------ -/

/-- C3, counterexample.  "note: SELECT 1 " has no fenced block and its
first (whole-word) SELECT is at index 6, but the code returns the
stripped suffix "SELECT 1", not the substring to the end of the input
"SELECT 1 ". -/
theorem kw_substring_cex :
    fencedSqlMatch (chars "note: SELECT 1 ") = none ∧
    fencedCodeMatch (chars "note: SELECT 1 ") = none ∧
    keywordSearch (chars "note: SELECT 1 ") = some 6 ∧
    startsWithCI (chars "select") ((chars "note: SELECT 1 ").drop 6) = true ∧
    extract_sql_from_response (chars "note: SELECT 1 ") ≠
      some ((chars "note: SELECT 1 ").drop 6) := by
  decide

/-- C3, amended: on input with no fenced code block whose first
whole-word keyword occurrence is a SELECT at a positive offset, the code
returns the TRIMMED substring of the input from that occurrence to the
end. -/
theorem kw_fallback_trimmed (t : List Char) (i : Nat)
    (hs : fencedSqlMatch t = none) (hc : fencedCodeMatch t = none)
    (hk : keywordSearch t = some i)
    (hsel : startsWithCI (chars "select") (t.drop i) = true)
    (hpre : 0 < i) :
    extract_sql_from_response t = some (pyStrip (t.drop i)) := by
  have ht : t ≠ [] := by
    intro he
    subst he
    have : keywordSearch ([] : List Char) = none := by decide
    rw [this] at hk
    exact Option.noConfusion hk
  rw [extract_sql_from_response, if_neg ht]
  simp [hs, hc, hk]

/-- C3, witness for the amended theorem at input "a SELECT 1". -/
theorem kw_fallback_trimmed_witness :
    extract_sql_from_response (chars "a SELECT 1") =
      some (pyStrip ((chars "a SELECT 1").drop 2)) :=
  kw_fallback_trimmed (chars "a SELECT 1") 2 (by decide) (by decide)
    (by decide) (by decide) (by decide)

/- ------------------------------------------------------------------ -/
/- Claim C9                                                           -/
/- ------------------------------------------------------------------ -/

/-- C9: whatever extract_sql_from_response returns on any input is a
contiguous substring of that input — extraction never fabricates or
reorders characters. -/
theorem extract_result_in_input (t r : List Char)
    (h : extract_sql_from_response t = some r) : substringOf r t := by
  by_cases ht : t = []
  · subst ht
    exact Option.noConfusion h
  · rw [extract_sql_from_response, if_neg ht] at h
    cases h1 : fencedSqlMatch t with
    | some r0 =>
      simp only [h1, Option.some.injEq] at h
      subst h
      exact fencedSqlMatch_substringOf h1
    | none =>
      cases h2 : fencedCodeMatch t with
      | some r0 =>
        simp only [h1, h2, Option.some.injEq] at h
        subst h
        exact fencedCodeMatch_substringOf h2
      | none =>
        cases h3 : keywordSearch t with
        | some i =>
          simp only [h1, h2, h3, Option.some.injEq] at h
          subst h
          exact substringOf_trans (pyStrip_substringOf _) (drop_substringOf _ _)
        | none =>
          simp only [h1, h2, h3, Option.some.injEq] at h
          subst h
          exact pyStrip_substringOf t

/-- C9, witness: on "hm SELECT 9" the extracted "SELECT 9" sits inside
the input. -/
theorem extract_result_in_input_witness :
    substringOf (chars "SELECT 9") (chars "hm SELECT 9") :=
  extract_result_in_input (chars "hm SELECT 9") (chars "SELECT 9") (by decide)

/- ------------------------------------------------------------------ -/
/- Claim C4                                                           -/
/- ------------------------------------------------------------------ -/

/-- C4, counterexample.  When the configured hash is the hash of the
empty password, submitting the (correct) empty password does not log the
session in: the `if password:` guard shows the enter-a-password warning
before bcrypt.checkpw is ever consulted. -/
theorem login_empty_correct_password_cex :
    ¬ (∀ (ck : List Char → Bool) (pw : List Char) (li : Bool),
        ck pw = true → (login_screen ck pw li).1 = true) := by
  intro hclaim
  have h := hclaim (fun _ => true) [] false rfl
  simp [login_screen] at h

/-- C4, amended: on a login attempt with a non-empty correct password the
session flag becomes true; with a non-empty incorrect password the flag
is left as it was and the incorrect-password error is shown; with an
empty password the flag is left as it was and a warning is shown. -/
theorem login_screen_auth (ck : List Char → Bool) (pw : List Char) (li : Bool) :
    (pw ≠ [] → ck pw = true → login_screen ck pw li = (true, Msg.loginSuccess)) ∧
    (pw ≠ [] → ck pw = false →
      login_screen ck pw li = (li, Msg.incorrectPassword)) ∧
    (pw = [] → login_screen ck pw li = (li, Msg.enterPassword)) := by
  refine ⟨?_, ?_, ?_⟩
  · intro hne hck
    simp [login_screen, hne, hck]
  · intro hne hck
    simp [login_screen, hne, hck]
  · intro he
    simp [login_screen, he]

/-- C4, witness for the amended theorem: a correct non-empty password
logs in, a wrong one leaves the flag alone, an empty one only warns. -/
theorem login_screen_auth_witness :
    login_screen (fun p => p == chars "pw") (chars "pw") false =
      (true, Msg.loginSuccess) ∧
    login_screen (fun p => p == chars "pw") (chars "zz") false =
      (false, Msg.incorrectPassword) ∧
    login_screen (fun p => p == chars "pw") [] true = (true, Msg.enterPassword) :=
  ⟨(login_screen_auth (fun p => p == chars "pw") (chars "pw") false).1
      (by decide) (by decide),
   (login_screen_auth (fun p => p == chars "pw") (chars "zz") false).2.1
      (by decide) (by decide),
   (login_screen_auth (fun p => p == chars "pw") [] true).2.2 rfl⟩

/- ------------------------------------------------------------------ -/
/- Claim C5                                                           -/
/- ------------------------------------------------------------------ -/

theorem run_step_keeps_question (runq : List Char → Option Nat)
    (q : List Char) (s : AppState) :
    (run_step runq q s).current_question = s.current_question := by
  cases h : runq q <;> simp [run_step, h]

/-- After a row of successful executions the stored history is the old
history extended by one entry per query, in execution order, each
carrying the (unchanged) current question and the run's row count. -/
theorem iter_runs_history (runq : List Char → Option Nat) :
    ∀ (qs : List (List Char)) (s : AppState),
      (∀ q ∈ qs, (runq q).isSome) →
      (iter_runs runq qs s).query_history =
        s.query_history ++
          qs.map (fun q => ⟨s.current_question, q, (runq q).getD 0⟩) ∧
      (iter_runs runq qs s).current_question = s.current_question := by
  intro qs
  induction qs with
  | nil =>
    intro s h
    exact ⟨by simp [iter_runs], rfl⟩
  | cons q rest ih =>
    intro s h
    have hq : (runq q).isSome := h q (by simp)
    obtain ⟨n, hn⟩ := Option.isSome_iff_exists.mp hq
    have hrest : ∀ q2 ∈ rest, (runq q2).isSome :=
      fun q2 hq2 => h q2 (by simp [hq2])
    have hrun : run_step runq q s =
        { s with query_history :=
            s.query_history ++ [⟨s.current_question, q, n⟩] } := by
      simp [run_step, hn]
    have hiter : iter_runs runq (q :: rest) s =
        iter_runs runq rest (run_step runq q s) := rfl
    obtain ⟨ih1, ih2⟩ := ih (run_step runq q s) hrest
    constructor
    · rw [hiter, ih1, hrun]
      simp [hn, List.append_assoc]
    · rw [hiter, ih2, hrun]

/-- C5: starting from an empty history, N successful executions leave
all N entries stored in execution order, while the page displays exactly
the most recent min(N, 5) of them (newest first). -/
theorem history_after_n_runs (runq : List Char → Option Nat)
    (qs : List (List Char)) (s : AppState)
    (h0 : s.query_history = []) (hok : ∀ q ∈ qs, (runq q).isSome) :
    (iter_runs runq qs s).query_history.map HistoryEntry.sql = qs ∧
    (iter_runs runq qs s).query_history.length = qs.length ∧
    displayed_history (iter_runs runq qs s) =
      ((iter_runs runq qs s).query_history.drop (qs.length - 5)).reverse ∧
    (displayed_history (iter_runs runq qs s)).length = min qs.length 5 := by
  obtain ⟨h1, _⟩ := iter_runs_history runq qs s hok
  rw [h0, List.nil_append] at h1
  have hlen : (iter_runs runq qs s).query_history.length = qs.length := by
    rw [h1, List.length_map]
  have hmap : (iter_runs runq qs s).query_history.map HistoryEntry.sql = qs := by
    rw [h1, List.map_map]
    exact List.map_id qs
  refine ⟨hmap, hlen, ?_, ?_⟩
  · rw [displayed_history, hlen]
  · rw [displayed_history, List.length_reverse, List.length_drop, hlen]
    omega

/-- Six sample questions, one more than the display bound. -/
def sampleQueries : List (List Char) :=
  [chars "q1", chars "q2", chars "q3", chars "q4", chars "q5", chars "q6"]

/-- C5, witness at six successful runs from the fresh session state. -/
theorem history_after_n_runs_witness :
    (iter_runs (fun _ => some 2) sampleQueries initState).query_history.map
        HistoryEntry.sql = sampleQueries ∧
    (iter_runs (fun _ => some 2) sampleQueries initState).query_history.length =
      sampleQueries.length ∧
    displayed_history (iter_runs (fun _ => some 2) sampleQueries initState) =
      ((iter_runs (fun _ => some 2) sampleQueries initState).query_history.drop
          (sampleQueries.length - 5)).reverse ∧
    (displayed_history
        (iter_runs (fun _ => some 2) sampleQueries initState)).length =
      min sampleQueries.length 5 :=
  history_after_n_runs (fun _ => some 2) sampleQueries initState rfl
    (fun _ _ => rfl)

/- ------------------------------------------------------------------ -/
/- Claim C6                                                           -/
/- ------------------------------------------------------------------ -/

/-- C6: when run_query fails — the connection is unavailable or the query
raises — it returns None, an inline message was shown for the failure,
and the Run-Query handler leaves the session state (in particular
query_history) unchanged. -/
theorem run_failure_preserves_history (connect : Option Unit)
    (exec : List Char → Option Nat) (edited : List Char) (s : AppState)
    (h : connect = none ∨ exec edited = none) :
    (run_query connect exec edited).1 = none ∧
    (run_query connect exec edited).2 ≠ [] ∧
    run_step (fun sql => (run_query connect exec sql).1) edited s = s := by
  rcases h with h | h
  · subst h
    exact ⟨rfl, by simp [run_query, get_db_connection],
           by simp [run_step, run_query, get_db_connection]⟩
  · cases connect with
    | none =>
      exact ⟨rfl, by simp [run_query, get_db_connection],
             by simp [run_step, run_query, get_db_connection]⟩
    | some u =>
      refine ⟨?_, ?_, ?_⟩ <;>
        simp [run_query, get_db_connection, run_step, h]

/-- C6, witness: with no database connection the run returns None, shows
a message and leaves the fresh state untouched. -/
theorem run_failure_witness :
    (run_query none (fun _ => none) (chars "SELECT 1")).1 = none ∧
    (run_query none (fun _ => none) (chars "SELECT 1")).2 ≠ [] ∧
    run_step (fun sql => (run_query none (fun _ => none) sql).1)
      (chars "SELECT 1") initState = initState :=
  run_failure_preserves_history none (fun _ => none) (chars "SELECT 1")
    initState (Or.inl rfl)

/- ------------------------------------------------------------------ -/
/- Claim C7                                                           -/
/- ------------------------------------------------------------------ -/

/-- C7: the Clear-History handler empties query_history and resets both
generated_sql and current_question to None. -/
theorem clear_resets (s : AppState) :
    (clear_step s).query_history = [] ∧
    (clear_step s).generated_sql = none ∧
    (clear_step s).current_question = none :=
  ⟨rfl, rfl, rfl⟩

/- ------------------------------------------------------------------ -/
/- Claim C8                                                           -/
/- ------------------------------------------------------------------ -/

/-- C8: when Generate SQL is clicked with a non-empty question, the state
passed to the LLM call already has generated_sql cleared and
current_question set to the stripped question, and after the handler the
stored generated_sql is either None or exactly the freshly extracted
query — a stale generated_sql never survives a new generation request. -/
theorem generate_resets_before_call (llm : List Char → Option (List Char))
    (question : List Char) (s : AppState) (h : question ≠ []) :
    (generate_prepare (pyStrip question) s).generated_sql = none ∧
    (generate_prepare (pyStrip question) s).current_question =
      some (pyStrip question) ∧
    ((generate_step llm question s).generated_sql = none ∨
     (generate_step llm question s).generated_sql =
       (generate_sql_with_gpt (llm (pyStrip question))).1) := by
  refine ⟨rfl, rfl, ?_⟩
  rw [generate_step, if_neg h]
  cases hr : generate_sql_with_gpt (llm (pyStrip question)) with
  | mk a b =>
    cases a with
    | none => simp [hr, generate_prepare]
    | some sql =>
      by_cases hsql : sql = []
      · simp [hr, hsql, generate_prepare]
      · simp [hr, hsql, generate_prepare]

/-- C8, witness at a concrete question and a concrete LLM reply. -/
theorem generate_resets_before_call_witness :
    (generate_prepare (pyStrip (chars " avg stay ")) initState).generated_sql =
      none ∧
    (generate_prepare (pyStrip (chars " avg stay ")) initState).current_question =
      some (pyStrip (chars " avg stay ")) ∧
    ((generate_step (fun _ => some (chars "SELECT 1")) (chars " avg stay ")
        initState).generated_sql = none ∨
     (generate_step (fun _ => some (chars "SELECT 1")) (chars " avg stay ")
        initState).generated_sql =
       (generate_sql_with_gpt (some (chars "SELECT 1"))).1) :=
  generate_resets_before_call (fun _ => some (chars "SELECT 1"))
    (chars " avg stay ") initState (by decide)

/- ------------------------------------------------------------------ -/
/- Claim C10                                                          -/
/- ------------------------------------------------------------------ -/

/-- C10: clicking Generate SQL with an empty question leaves the whole
session state unchanged, whatever the LLM would have answered — so in
particular current_question, generated_sql and query_history keep their
previous values and no generation is attempted. -/
theorem generate_empty_question_frame (llm : List Char → Option (List Char))
    (s : AppState) : generate_step llm [] s = s := rfl

end QueryPatients
